import Mathlib

/-!
Shallow embedding of `src/app.py`, a Flask service that predicts the
customer-acquisition cost (CAC) of a welcome box by issuing ten calls to an
external inference oracle, validating each textual reply as a non-negative
decimal number, averaging the ten values, and formatting the mean to two
decimal places.

Modelling conventions:
* IEEE-754 doubles are idealised as exact rationals (`ℚ`).  All concrete
  inputs used in counterexamples and witnesses are dyadic rationals on which
  Python's double arithmetic is exact, so the model and the running code
  agree at every such input.
* Python `float(...)` parsing is modelled on plain decimal literals
  (optional sign, digits, optional decimal point); the special forms
  `inf`/`nan`, exponents and digit underscores are outside the modelled
  reply alphabet.
* Python's `f"{x:.2f}"` fixed-point formatting rounds to the nearest
  hundredth with ties to even, which `roundCents` reproduces.
* The Prometheus metric objects are modelled as fields of a `Metrics`
  record threaded through the handlers; each `.inc()` is a field update.
* The external oracle is a deterministic function from the prompt and the
  call index to a reply (HTTP status, body text, extracted message
  content), which suffices for the per-request control flow.
-/

/-! ### Decimal strings: parsing and printing -/

/-- Value of a most-significant-first digit string, with accumulator `a`
(the usual left fold of `10 * acc + digit`). -/
def digitsToNatAux (a : Nat) (l : List Char) : Nat :=
  l.foldl (fun acc c => 10 * acc + (c.toNat - 48)) a

/-- Numeric value of a most-significant-first digit string. -/
def digitsToNat (l : List Char) : Nat :=
  digitsToNatAux 0 l

/-- Decimal digits of `n`, most significant first; `fuel`-structured
recursion (`fuel ≥ n` suffices), empty for `n = 0`. -/
def natToDigitsAux : Nat → Nat → List Char
  | 0, _ => []
  | fuel + 1, n =>
    if n = 0 then [] else natToDigitsAux fuel (n / 10) ++ [Char.ofNat (48 + n % 10)]

/-- Decimal digit string of `n`, most significant first (`"0"` for zero),
as produced by Python's integer formatting. -/
def natToDigits (n : Nat) : List Char :=
  if n = 0 then ['0'] else natToDigitsAux n n

/-- Exactly two decimal digits for `k < 100`, as the fractional part of
Python's `"%.2f"` formatting. -/
def twoDigits (k : Nat) : List Char :=
  [Char.ofNat (48 + k / 10), Char.ofNat (48 + k % 10)]

/-- Fixed-point rendering of a number of cents `n` as whole part, dot, and
two fractional digits; this is the `"%.2f"` format of `n / 100` for
non-negative exact values. -/
def formatCentsNat (n : Nat) : String :=
  String.mk (natToDigits (n / 100) ++ '.' :: twoDigits (n % 100))

/-- Fixed-point rendering of a signed number of cents.  The negative branch
is unreachable in the service (all samples are non-negative) and is kept
for totality. -/
def formatCents (c : ℤ) : String :=
  if c < 0 then "-" ++ formatCentsNat (-c).toNat else formatCentsNat c.toNat

/-- Split a character list at the first `'.'`, returning the prefix and,
when a dot exists, the remainder after it. -/
def splitOnDot : List Char → List Char × Option (List Char)
  | [] => ([], none)
  | c :: cs =>
    if c = '.' then ([], some cs)
    else
      let p := splitOnDot cs
      (c :: p.1, p.2)

/-- Parse an unsigned decimal literal (digits with an optional single
decimal point, at least one digit in total), as Python's `float` does on
such strings: `"1."` and `".5"` are accepted, `"."` and `"1.2.3"` are not. -/
def parseUnsigned? (l : List Char) : Option ℚ :=
  match splitOnDot l with
  | (i, none) =>
    if i ≠ [] ∧ i.all Char.isDigit then some ((digitsToNat i : ℚ)) else none
  | (i, some f) =>
    if (i ≠ [] ∨ f ≠ []) ∧ i.all Char.isDigit ∧ f.all Char.isDigit then
      some ((digitsToNat i : ℚ) + (digitsToNat f : ℚ) / (10 : ℚ) ^ f.length)
    else none

/-- Python `float(s)` on plain decimal literals: optional single leading
sign, then an unsigned decimal literal. -/
def parseFloat? (s : String) : Option ℚ :=
  match s.data with
  | [] => none
  | c :: rest =>
    if c = '-' then (parseUnsigned? rest).map Neg.neg
    else if c = '+' then parseUnsigned? rest
    else parseUnsigned? (c :: rest)

/-- Python's `str.strip()`: drop leading and trailing whitespace. -/
def stripChars (l : List Char) : List Char :=
  ((l.dropWhile Char.isWhitespace).reverse.dropWhile Char.isWhitespace).reverse

/-- Python's `str.strip()` on strings. -/
def strip (s : String) : String :=
  String.mk (stripChars s.data)

/-! ### Rounding -/

/-- Round to the nearest integer with ties to even, the rounding applied by
Python's fixed-point float formatting when the value is exact. -/
def roundHalfEven (q : ℚ) : ℤ :=
  if Int.fract q < 1 / 2 then ⌊q⌋
  else if 1 / 2 < Int.fract q then ⌊q⌋ + 1
  else if ⌊q⌋ % 2 = 0 then ⌊q⌋ else ⌊q⌋ + 1

/-- Number of cents reported by `f"{q:.2f}"` on an exact value `q`. -/
def roundCents (q : ℚ) : ℤ :=
  roundHalfEven (q * 100)

/-- Modelled from the spec: "standard rounding (round half away from
zero)" to two decimal places, for comparison with the code's rounding. -/
def roundHalfAwayCents (q : ℚ) : ℤ :=
  if 0 ≤ q then ⌊q * 100 + 1 / 2⌋ else -⌊-(q * 100) + 1 / 2⌋

/-! ### Data model -/

/-- One oracle interaction, as observed by `predict_box_cac`: the HTTP
status of `requests.post`, the response body text, and the extracted
`choices[0].message.content` (empty when the structure is absent). -/
structure OracleReply where
  status : Nat
  bodyText : String
  content : String
deriving DecidableEq, Repr

/-- Validation-layer failures of lines 75-85 of `app.py`.  The code raises
`ValueError("Empty response from model")` for a blank reply and
`ValueError(f"Invalid CAC: {cac}")` in every other failing case: the
negativity check's own message is swallowed by the enclosing
`except ValueError` clause, so format and range violations surface as the
same kind. -/
inductive ValErr where
  | emptyReply : ValErr
  | invalidCAC (raw : String) : ValErr
deriving DecidableEq, Repr

/-- A failure of one sampling iteration: a non-200 oracle status (line 71)
or a validation failure. -/
inductive PredErr where
  | transport (status : Nat) (bodyText : String) : PredErr
  | validation (e : ValErr) : PredErr
deriving DecidableEq, Repr

/-- The Prometheus registry of `app.py`, restricted to the labels the
handlers actually touch.  `status_codes` records one entry per labelled
increment; `cac_distribution` is the last-estimate gauge (`none` before the
first successful prediction). -/
structure Metrics where
  request_count_predict : Nat
  request_count_health : Nat
  error_count_predict : Nat
  success_count_predict : Nat
  grok_calls : Nat
  status_codes : List String
  cac_distribution : Option ℚ
deriving DecidableEq, Repr

/-- Fresh registry at process start. -/
def initMetrics : Metrics :=
  ⟨0, 0, 0, 0, 0, [], none⟩

/-- JSON body of a `/predict_box_score` request: each field present or
absent.  `none` at the request level models a missing or non-object JSON
body (`not data` in the code also treats the empty object as missing,
which coincides with both fields absent here). -/
structure RequestBody where
  historical_data : Option String
  future_box_info : Option String
deriving DecidableEq, Repr

/-- The JSON response bodies the service can produce. -/
inductive ResponseBody where
  /-- `{"predicted_cac": s}` -/
  | predictedCac (s : String) : ResponseBody
  /-- `{"error": msg}` -/
  | errorBody (msg : String) : ResponseBody
  /-- `{"status": "healthy"}` -/
  | healthy : ResponseBody
deriving DecidableEq, Repr

/-! ### The engine -/

/-- Lines 36-42: the prompt template with both payloads embedded
verbatim. -/
def buildPrompt (historical_data future_box_info : String) : String :=
  "\nYou are an expert in evaluating Goodiebox welcome boxes for their ability to attract new members at low Customer Acquisition Cost (CAC). Based on the historical data provided, which includes box features and their corresponding CAC in euros, predict the CAC for the future welcome box. The CAC should be a numerical value in euros, with two decimal places (e.g., 10.50). Consider factors such as the number of products, total retail value, number of unique categories, number of full-size products, number of premium products (>€20), total weight, average product rating, average brand rating, average category rating, and niche products. Return only the numerical CAC value in euros (e.g., 10.50).\n\nHistorical Data: " ++ historical_data ++ "\n\nFuture Box Info: " ++ future_box_info ++ "\n"

/-- Lines 73-85: strip the reply, reject blank replies, parse as a float,
reject negative values; parse and negativity failures are re-raised as the
single `Invalid CAC` kind. -/
def validateReply (content : String) : Except ValErr ℚ :=
  let cac := strip content
  if cac = "" then Except.error ValErr.emptyReply
  else
    match parseFloat? cac with
    | none => Except.error (ValErr.invalidCAC cac)
    | some v => if v < 0 then Except.error (ValErr.invalidCAC cac) else Except.ok v

/-- The message carried by the exception that aborts the sampling loop
(lines 71, 77, 85). -/
def predErrMsg : PredErr → String
  | PredErr.transport code body =>
      "xAI API error: " ++ String.mk (natToDigits code) ++ " - " ++ body
  | PredErr.validation ValErr.emptyReply => "Empty response from model"
  | PredErr.validation (ValErr.invalidCAC raw) => "Invalid CAC: " ++ raw

/-- Outcome of iteration `n` of the sampling loop against oracle `o`
(status check of line 69 followed by reply validation). -/
def stepResult (o : Nat → OracleReply) (n : Nat) : Except PredErr ℚ :=
  if (o n).status = 200 then (validateReply (o n).content).mapError PredErr.validation
  else Except.error (PredErr.transport (o n).status (o n).bodyText)

/-- Metric updates performed unconditionally by iteration `n` before any
failure can abort it: `grok_calls.inc()` (line 66) and the per-status-code
counter (line 68). -/
def stepMetrics (o : Nat → OracleReply) (n : Nat) (m : Metrics) : Metrics :=
  { m with grok_calls := m.grok_calls + 1,
           status_codes := m.status_codes ++ [String.mk (natToDigits (o n).status)] }

/-- The `for _ in range(10)` loop of lines 48-85: run `k` iterations
starting at call index `i`, collecting the validated samples; the first
failing iteration aborts the loop (its metric increments having already
happened) and no later oracle call is made. -/
def sampleLoop (o : Nat → OracleReply) : Nat → Nat → Metrics → Metrics × Except PredErr (List ℚ)
  | 0, _, m => (m, Except.ok [])
  | k + 1, i, m =>
    let m1 := stepMetrics o i m
    match stepResult o i with
    | Except.error e => (m1, Except.error e)
    | Except.ok v =>
      match sampleLoop o k (i + 1) m1 with
      | (m2, Except.error e) => (m2, Except.error e)
      | (m2, Except.ok vs) => (m2, Except.ok (v :: vs))

/-- Lines 32-97, `predict_box_cac`: build the prompt, run the ten-iteration
sampling loop, and on the all-valid path average the samples, format the
mean to two decimals, set the last-estimate gauge to `float(final_cac)` and
count a success; any failure increments the error counter and surfaces as
one wrapped `Prediction error` message. -/
def predict_box_cac (o : String → Nat → OracleReply) (historical_data future_box_info : String)
    (m : Metrics) : Metrics × Except String String :=
  let prompt := buildPrompt historical_data future_box_info
  match sampleLoop (o prompt) 10 0 m with
  | (m1, Except.error e) =>
    ({ m1 with error_count_predict := m1.error_count_predict + 1 },
     Except.error ("Prediction error: " ++ predErrMsg e))
  | (m1, Except.ok cacs) =>
    if cacs = [] then
      ({ m1 with error_count_predict := m1.error_count_predict + 1 },
       Except.error ("Prediction error: No valid CAC values collected"))
    else
      let avg := cacs.sum / (cacs.length : ℚ)
      let final_cac := formatCents (roundCents avg)
      ({ m1 with cac_distribution := parseFloat? final_cac,
                 success_count_predict := m1.success_count_predict + 1 },
       Except.ok final_cac)

/-- Lines 99-118, the `/predict_box_score` route: count the request, return
400 before any oracle call when `future_box_info` is missing, otherwise run
the prediction and map its outcome to 200 or to 500 with the error message
(the route's own handler counting one more error). -/
def box_score (o : String → Nat → OracleReply) (req : Option RequestBody) (m : Metrics) :
    Metrics × Nat × ResponseBody :=
  let m0 := { m with request_count_predict := m.request_count_predict + 1 }
  match req with
  | none =>
    ({ m0 with error_count_predict := m0.error_count_predict + 1,
               status_codes := m0.status_codes ++ ["400"] },
     400, ResponseBody.errorBody ("Missing future_box_info"))
  | some data =>
    match data.future_box_info with
    | none =>
      ({ m0 with error_count_predict := m0.error_count_predict + 1,
                 status_codes := m0.status_codes ++ ["400"] },
       400, ResponseBody.errorBody ("Missing future_box_info"))
    | some fbi =>
      let hd := data.historical_data.getD ("No historical data provided")
      match predict_box_cac o hd fbi m0 with
      | (m1, Except.ok cac) =>
        ({ m1 with status_codes := m1.status_codes ++ ["200"] },
         200, ResponseBody.predictedCac cac)
      | (m1, Except.error msg) =>
        ({ m1 with error_count_predict := m1.error_count_predict + 1,
                   status_codes := m1.status_codes ++ ["500"] },
         500, ResponseBody.errorBody msg)

/-- Lines 127-132, the `/health` route: count the request and return 200
with a fixed body; the oracle is never consulted (the handler does not even
receive it). -/
def health_check (m : Metrics) : Metrics × Nat × ResponseBody :=
  ({ m with request_count_health := m.request_count_health + 1,
            status_codes := m.status_codes ++ ["200"] },
   200, ResponseBody.healthy)

/-- Oracle stub that succeeds on every call with content `"9.00"`. -/
def oracleGood : String → Nat → OracleReply :=
  fun _ _ => ⟨200, "", "9.00"⟩

/-- Oracle stub whose content is never numeric. -/
def oracleBad : String → Nat → OracleReply :=
  fun _ _ => ⟨200, "", "abc"⟩

/-- Oracle stub that always answers with the dyadic value `"0.125"`,
on which double arithmetic is exact. -/
def oracleTie : String → Nat → OracleReply :=
  fun _ _ => ⟨200, "", "0.125"⟩

/-! ### Helper lemmas about validation -/

/-- Validation succeeds exactly on replies whose stripped text is
non-empty, parses as a decimal literal, and is non-negative. -/
theorem validateReply_ok_iff (s : String) (q : ℚ) :
    validateReply s = Except.ok q ↔
      strip s ≠ "" ∧ parseFloat? (strip s) = some q ∧ 0 ≤ q := by
  unfold validateReply
  by_cases h0 : strip s = ""
  · simp [h0]
  · cases hp : parseFloat? (strip s) with
    | none => simp [h0, hp]
    | some v =>
      by_cases hv : v < 0
      · simp [h0, hp, hv]
        intro he
        exact he ▸ hv
      · simp [h0, hp, hv, not_lt.mp hv]
        intro he
        exact he ▸ not_lt.mp hv

/-- The empty-reply kind occurs exactly when the stripped reply is empty. -/
theorem validateReply_empty_iff (s : String) :
    validateReply s = Except.error ValErr.emptyReply ↔ strip s = "" := by
  unfold validateReply
  by_cases h0 : strip s = ""
  · simp [h0]
  · cases hp : parseFloat? (strip s) with
    | none => simp [h0, hp]
    | some v =>
      by_cases hv : v < 0 <;> simp [h0, hp, hv]

/-- The single invalid kind occurs both for unparseable replies and for
parseable negative replies. -/
theorem validateReply_invalid_iff (s r : String) :
    validateReply s = Except.error (ValErr.invalidCAC r) ↔
      strip s ≠ "" ∧ r = strip s ∧
        (parseFloat? (strip s) = none ∨ ∃ q, parseFloat? (strip s) = some q ∧ q < 0) := by
  unfold validateReply
  by_cases h0 : strip s = ""
  · simp [h0]
  · cases hp : parseFloat? (strip s) with
    | none => simp [h0, hp, eq_comm]
    | some v =>
      by_cases hv : v < 0
      · simp [h0, hp, hv, eq_comm]
      · simp [h0, hp, hv]

/-! ### Helper lemmas about the sampling loop -/

/-- The loop's outcome does not depend on the metrics it starts from. -/
theorem sampleLoop_snd_congr (o : Nat → OracleReply) (k : Nat) :
    ∀ (i : Nat) (m m' : Metrics), (sampleLoop o k i m).2 = (sampleLoop o k i m').2 := by
  induction k with
  | zero => intro i m m'; rfl
  | succ k ih =>
    intro i m m'
    simp only [sampleLoop]
    cases hs : stepResult o i with
    | error e => rfl
    | ok v =>
      have h := ih (i + 1) (stepMetrics o i m) (stepMetrics o i m')
      rcases h1 : sampleLoop o k (i + 1) (stepMetrics o i m) with ⟨m1, r1⟩
      rcases h2 : sampleLoop o k (i + 1) (stepMetrics o i m') with ⟨m2, r2⟩
      rw [h1, h2] at h
      simp only at h
      cases r1 <;> cases r2 <;> simp_all

/-- The loop never touches the counters and gauge owned by the outer
handlers. -/
theorem sampleLoop_frame (o : Nat → OracleReply) (k : Nat) :
    ∀ (i : Nat) (m : Metrics),
      (sampleLoop o k i m).1.request_count_predict = m.request_count_predict ∧
      (sampleLoop o k i m).1.request_count_health = m.request_count_health ∧
      (sampleLoop o k i m).1.error_count_predict = m.error_count_predict ∧
      (sampleLoop o k i m).1.success_count_predict = m.success_count_predict ∧
      (sampleLoop o k i m).1.cac_distribution = m.cac_distribution := by
  induction k with
  | zero => intro i m; exact ⟨rfl, rfl, rfl, rfl, rfl⟩
  | succ k ih =>
    intro i m
    simp only [sampleLoop]
    cases hs : stepResult o i with
    | error e => exact ⟨rfl, rfl, rfl, rfl, rfl⟩
    | ok v =>
      have h := ih (i + 1) (stepMetrics o i m)
      rcases h1 : sampleLoop o k (i + 1) (stepMetrics o i m) with ⟨m1, r1⟩
      rw [h1] at h
      cases r1 <;> simpa [stepMetrics] using h

/-- The list of sample values the loop collects on an all-valid run:
`v (i) , v (i+1) , …` for `k` calls. -/
def sampleValues (v : Nat → ℚ) (k i : Nat) : List ℚ :=
  (List.range k).map (fun j => v (i + j))

theorem sampleValues_succ (v : Nat → ℚ) (k i : Nat) :
    sampleValues v (k + 1) i = v i :: sampleValues v k (i + 1) := by
  unfold sampleValues
  rw [List.range_succ_eq_map, List.map_cons, List.map_map]
  congr 1
  apply List.map_congr_left
  intro a ha
  simp only [Function.comp_apply]
  congr 1
  omega

theorem sampleValues_length (v : Nat → ℚ) (k i : Nat) :
    (sampleValues v k i).length = k := by
  simp [sampleValues]

/-- On a run where all `k` sampled replies validate, the loop returns all
`k` values and makes exactly `k` oracle calls. -/
theorem sampleLoop_ok (o : Nat → OracleReply) (v : Nat → ℚ) (k : Nat) :
    ∀ (i : Nat) (m : Metrics),
      (∀ j, j < k → stepResult o (i + j) = Except.ok (v (i + j))) →
      (sampleLoop o k i m).2 = Except.ok (sampleValues v k i) ∧
      (sampleLoop o k i m).1.grok_calls = m.grok_calls + k := by
  induction k with
  | zero => intro i m _; simp [sampleLoop, sampleValues]
  | succ k ih =>
    intro i m h
    have h0 : stepResult o i = Except.ok (v i) := by
      have h' := h 0 (Nat.succ_pos k)
      simpa using h'
    have hsh : ∀ j, j < k → stepResult o ((i + 1) + j) = Except.ok (v ((i + 1) + j)) := by
      intro j hj
      have h' := h (j + 1) (by omega)
      have e : i + (j + 1) = (i + 1) + j := by omega
      rwa [e] at h'
    have hIH := ih (i + 1) (stepMetrics o i m) hsh
    simp only [sampleLoop, h0]
    rcases hsl : sampleLoop o k (i + 1) (stepMetrics o i m) with ⟨m2, r2⟩
    rw [hsl] at hIH
    obtain ⟨hr, hg⟩ := hIH
    simp only at hr hg
    subst hr
    refine ⟨?_, ?_⟩
    · simp [sampleValues_succ]
    · simp only []
      rw [hg]
      simp [stepMetrics]
      omega

/-- Fail-fast: if the first `j` replies validate and reply `j` fails, the
loop aborts with that failure having made exactly `j + 1` oracle calls. -/
theorem sampleLoop_fail (o : Nat → OracleReply) (e : PredErr) (j : Nat) :
    ∀ (k i : Nat) (m : Metrics), j < k →
      (∀ t, t < j → ∃ q, stepResult o (i + t) = Except.ok q) →
      stepResult o (i + j) = Except.error e →
      (sampleLoop o k i m).2 = Except.error e ∧
      (sampleLoop o k i m).1.grok_calls = m.grok_calls + (j + 1) := by
  induction j with
  | zero =>
    intro k i m hk hok he
    cases k with
    | zero => omega
    | succ k =>
      simp only [Nat.add_zero] at he
      simp only [sampleLoop, he]
      exact ⟨trivial, by simp [stepMetrics]⟩
  | succ j ih =>
    intro k i m hk hok he
    cases k with
    | zero => omega
    | succ k =>
      obtain ⟨q0, hq0⟩ := hok 0 (Nat.succ_pos j)
      simp only [Nat.add_zero] at hq0
      simp only [sampleLoop, hq0]
      have hsh : ∀ t, t < j → ∃ q, stepResult o ((i + 1) + t) = Except.ok q := by
        intro t ht
        obtain ⟨q, hq⟩ := hok (t + 1) (by omega)
        have et : i + (t + 1) = (i + 1) + t := by omega
        exact ⟨q, by rwa [et] at hq⟩
      have he' : stepResult o ((i + 1) + j) = Except.error e := by
        have ej : i + (j + 1) = (i + 1) + j := by omega
        rwa [ej] at he
      have hIH := ih k (i + 1) (stepMetrics o i m) (by omega) hsh he'
      rcases hsl : sampleLoop o k (i + 1) (stepMetrics o i m) with ⟨m2, r2⟩
      rw [hsl] at hIH
      obtain ⟨hr, hg⟩ := hIH
      simp only at hr hg
      subst hr
      refine ⟨rfl, ?_⟩
      simp only []
      rw [hg]
      simp [stepMetrics]
      omega

/-- Conversely, a successful loop run means every one of the `k` replies
validated, in order, to the values returned. -/
theorem sampleLoop_ok_inv (o : Nat → OracleReply) (k : Nat) :
    ∀ (i : Nat) (m : Metrics) (vs : List ℚ),
      (sampleLoop o k i m).2 = Except.ok vs →
      vs.length = k ∧ ∀ j, j < k → stepResult o (i + j) = Except.ok (vs.getD j 0) := by
  induction k with
  | zero =>
    intro i m vs h
    simp [sampleLoop] at h
    subst h
    exact ⟨rfl, fun j hj => absurd hj (by omega)⟩
  | succ k ih =>
    intro i m vs h
    simp only [sampleLoop] at h
    cases hs : stepResult o i with
    | error e => rw [hs] at h; simp at h
    | ok v =>
      rw [hs] at h
      rcases hsl : sampleLoop o k (i + 1) (stepMetrics o i m) with ⟨m2, r2⟩
      rw [hsl] at h
      cases r2 with
      | error e => simp at h
      | ok vs' =>
        simp only at h
        have hvs : vs = v :: vs' := by
          cases h
          rfl
        subst hvs
        have hIH := ih (i + 1) (stepMetrics o i m) vs' (by rw [hsl])
        obtain ⟨hlen, hidx⟩ := hIH
        refine ⟨by simp [hlen], ?_⟩
        intro j hj
        cases j with
        | zero => simpa using hs
        | succ j =>
          have h' := hidx j (by omega)
          have ej : (i + 1) + j = i + (j + 1) := by omega
          rw [ej] at h'
          simpa using h'

/-! ### Helper lemmas about predict_box_cac and the route -/

theorem sampleValues_zero (v : Nat → ℚ) (k : Nat) :
    sampleValues v k 0 = (List.range k).map v := by
  simp [sampleValues]

/-- All ten replies valid: the prediction succeeds with the formatted
rounded mean, makes ten oracle calls, counts one success and no error, and
stores the parsed formatted mean in the gauge. -/
theorem predict_box_cac_ok (o : String → Nat → OracleReply) (hd fbi : String) (m : Metrics)
    (v : Nat → ℚ)
    (h : ∀ j, j < 10 → stepResult (o (buildPrompt hd fbi)) j = Except.ok (v j)) :
    (predict_box_cac o hd fbi m).2 =
      Except.ok (formatCents (roundCents (((List.range 10).map v).sum / 10))) ∧
    (predict_box_cac o hd fbi m).1.grok_calls = m.grok_calls + 10 ∧
    (predict_box_cac o hd fbi m).1.error_count_predict = m.error_count_predict ∧
    (predict_box_cac o hd fbi m).1.success_count_predict = m.success_count_predict + 1 ∧
    (predict_box_cac o hd fbi m).1.cac_distribution =
      parseFloat? (formatCents (roundCents (((List.range 10).map v).sum / 10))) := by
  have h' : ∀ j, j < 10 → stepResult (o (buildPrompt hd fbi)) (0 + j) = Except.ok (v (0 + j)) := by
    intro j hj
    simpa using h j hj
  have hok := sampleLoop_ok (o (buildPrompt hd fbi)) v 10 0 m h'
  have hfr := sampleLoop_frame (o (buildPrompt hd fbi)) 10 0 m
  simp only [predict_box_cac]
  rcases hsl : sampleLoop (o (buildPrompt hd fbi)) 10 0 m with ⟨m1, r1⟩
  rw [hsl] at hok hfr
  obtain ⟨hr, hg⟩ := hok
  simp only at hr hg hfr
  subst hr
  refine ⟨?_, ?_, ?_, ?_, ?_⟩ <;>
    simp [sampleValues_zero, sampleValues_length, hg, hfr.2.2.1, hfr.2.2.2.1,
      List.map_eq_nil_iff, List.range_eq_nil]

/-- First failure at reply `j`: the prediction aborts with the wrapped
error, having made only `j + 1` oracle calls; one error is counted inside
the aggregation function and the gauge and success counter are untouched. -/
theorem predict_box_cac_fail (o : String → Nat → OracleReply) (hd fbi : String) (m : Metrics)
    (j : Nat) (e : PredErr)
    (hj : j < 10)
    (hok : ∀ t, t < j → ∃ q, stepResult (o (buildPrompt hd fbi)) t = Except.ok q)
    (he : stepResult (o (buildPrompt hd fbi)) j = Except.error e) :
    (predict_box_cac o hd fbi m).2 = Except.error ("Prediction error: " ++ predErrMsg e) ∧
    (predict_box_cac o hd fbi m).1.grok_calls = m.grok_calls + (j + 1) ∧
    (predict_box_cac o hd fbi m).1.error_count_predict = m.error_count_predict + 1 ∧
    (predict_box_cac o hd fbi m).1.success_count_predict = m.success_count_predict ∧
    (predict_box_cac o hd fbi m).1.cac_distribution = m.cac_distribution := by
  have hok' : ∀ t, t < j → ∃ q, stepResult (o (buildPrompt hd fbi)) (0 + t) = Except.ok q := by
    intro t ht
    simpa using hok t ht
  have he' : stepResult (o (buildPrompt hd fbi)) (0 + j) = Except.error e := by
    simpa using he
  have hf := sampleLoop_fail (o (buildPrompt hd fbi)) e j 10 0 m hj hok' he'
  have hfr := sampleLoop_frame (o (buildPrompt hd fbi)) 10 0 m
  simp only [predict_box_cac]
  rcases hsl : sampleLoop (o (buildPrompt hd fbi)) 10 0 m with ⟨m1, r1⟩
  rw [hsl] at hf hfr
  obtain ⟨hr, hg⟩ := hf
  simp only at hr hg hfr
  subst hr
  refine ⟨?_, ?_, ?_, ?_, ?_⟩ <;>
    simp [hg, hfr.2.2.1, hfr.2.2.2.1, hfr.2.2.2.2]

/-- Any failing prediction counts exactly one error inside the aggregation
function and leaves the gauge and success counter untouched. -/
theorem predict_box_cac_error (o : String → Nat → OracleReply) (hd fbi : String) (m : Metrics)
    (msg : String)
    (h : (predict_box_cac o hd fbi m).2 = Except.error msg) :
    (predict_box_cac o hd fbi m).1.error_count_predict = m.error_count_predict + 1 ∧
    (predict_box_cac o hd fbi m).1.cac_distribution = m.cac_distribution ∧
    (predict_box_cac o hd fbi m).1.success_count_predict = m.success_count_predict := by
  have hfr := sampleLoop_frame (o (buildPrompt hd fbi)) 10 0 m
  simp only [predict_box_cac] at h ⊢
  rcases hsl : sampleLoop (o (buildPrompt hd fbi)) 10 0 m with ⟨m1, r1⟩
  rw [hsl] at h hfr
  simp only at hfr
  cases r1 with
  | error e =>
    exact ⟨by simp [hfr.2.2.1], by simp [hfr.2.2.2.2], by simp [hfr.2.2.2.1]⟩
  | ok cacs =>
    by_cases hne : cacs = []
    · simp only [hne, if_true] at h ⊢
      exact ⟨by simp [hfr.2.2.1], by simp [hfr.2.2.2.2], by simp [hfr.2.2.2.1]⟩
    · simp only [hne, if_false] at h
      exact absurd h (by simp)

/-- A successful prediction reports the formatted rounded mean of the ten
validated samples and stores its parsed value in the gauge. -/
theorem predict_box_cac_ok_inv (o : String → Nat → OracleReply) (hd fbi : String) (m : Metrics)
    (s : String)
    (h : (predict_box_cac o hd fbi m).2 = Except.ok s) :
    ∃ vs : List ℚ, vs.length = 10 ∧
      (∀ j, j < 10 → stepResult (o (buildPrompt hd fbi)) j = Except.ok (vs.getD j 0)) ∧
      s = formatCents (roundCents (vs.sum / 10)) ∧
      (predict_box_cac o hd fbi m).1.cac_distribution = parseFloat? s ∧
      (predict_box_cac o hd fbi m).1.success_count_predict = m.success_count_predict + 1 ∧
      (predict_box_cac o hd fbi m).1.error_count_predict = m.error_count_predict := by
  have hfr := sampleLoop_frame (o (buildPrompt hd fbi)) 10 0 m
  simp only [predict_box_cac] at h ⊢
  rcases hsl : sampleLoop (o (buildPrompt hd fbi)) 10 0 m with ⟨m1, r1⟩
  rw [hsl] at h hfr
  simp only at hfr
  cases r1 with
  | error e => exact absurd h (by simp)
  | ok cacs =>
    by_cases hne : cacs = []
    · simp only [hne, if_true] at h
      exact absurd h (by simp)
    · simp only [hne, if_false] at h ⊢
      have hinv := sampleLoop_ok_inv (o (buildPrompt hd fbi)) 10 0 m cacs (by rw [hsl])
      obtain ⟨hlen, hidx⟩ := hinv
      refine ⟨cacs, hlen, ?_, ?_, ?_, ?_, ?_⟩
      · intro j hj
        have h' := hidx j hj
        simpa using h'
      · have hs : s = formatCents (roundCents (cacs.sum / (cacs.length : ℚ))) := by
          cases h
          rfl
        rw [hs, hlen]
        norm_num
      · have hs : s = formatCents (roundCents (cacs.sum / (cacs.length : ℚ))) := by
          cases h
          rfl
        simp only [hs]
      · simp [hfr.2.2.2.1]
      · simp [hfr.2.2.1]

/-- Requests rejected at the boundary: 400 with the fixed error body, the
oracle-call counter untouched, the gauge untouched. -/
theorem box_score_missing (o : String → Nat → OracleReply) (req : Option RequestBody)
    (m : Metrics)
    (h : ∀ b, req = some b → b.future_box_info = none) :
    (box_score o req m).2.1 = 400 ∧
    (box_score o req m).2.2 = ResponseBody.errorBody ("Missing future_box_info") ∧
    (box_score o req m).1.grok_calls = m.grok_calls ∧
    (box_score o req m).1.cac_distribution = m.cac_distribution := by
  cases req with
  | none => exact ⟨rfl, rfl, rfl, rfl⟩
  | some b =>
    have hb := h b rfl
    simp [box_score, hb]

/-- All ten replies valid: the route returns 200 with the formatted rounded
mean, after exactly ten oracle calls, one success count, no error count,
and the gauge set to the parsed reported string. -/
theorem box_score_ok_samples (o : String → Nat → OracleReply) (b : RequestBody) (fbi : String)
    (m : Metrics) (v : Nat → ℚ)
    (hf : b.future_box_info = some fbi)
    (h : ∀ j, j < 10 →
      stepResult (o (buildPrompt (b.historical_data.getD ("No historical data provided")) fbi)) j =
        Except.ok (v j)) :
    (box_score o (some b) m).2 =
      (200, ResponseBody.predictedCac (formatCents (roundCents (((List.range 10).map v).sum / 10)))) ∧
    (box_score o (some b) m).1.grok_calls = m.grok_calls + 10 ∧
    (box_score o (some b) m).1.error_count_predict = m.error_count_predict ∧
    (box_score o (some b) m).1.success_count_predict = m.success_count_predict + 1 ∧
    (box_score o (some b) m).1.cac_distribution =
      parseFloat? (formatCents (roundCents (((List.range 10).map v).sum / 10))) := by
  have hp := predict_box_cac_ok o (b.historical_data.getD ("No historical data provided")) fbi
      { m with request_count_predict := m.request_count_predict + 1 } v h
  simp only [box_score, hf]
  rcases hpr : predict_box_cac o (b.historical_data.getD ("No historical data provided")) fbi
      { m with request_count_predict := m.request_count_predict + 1 } with ⟨m1, r1⟩
  rw [hpr] at hp
  obtain ⟨hr, hg, he, hs, hgd⟩ := hp
  simp only at hr hg he hs hgd
  subst hr
  refine ⟨rfl, ?_, ?_, ?_, ?_⟩ <;> simp [hg, he, hs, hgd]

/-- First invalid reply at index `j`: the route returns 500 with the
wrapped error message, after exactly `j + 1` oracle calls; the error
counter rises by two (once in the aggregation function, once in the route
handler) and the gauge and success counter are untouched. -/
theorem box_score_fail_samples (o : String → Nat → OracleReply) (b : RequestBody) (fbi : String)
    (m : Metrics) (j : Nat) (e : PredErr)
    (hf : b.future_box_info = some fbi)
    (hj : j < 10)
    (hok : ∀ t, t < j →
      ∃ q, stepResult (o (buildPrompt (b.historical_data.getD ("No historical data provided")) fbi)) t =
        Except.ok q)
    (he : stepResult (o (buildPrompt (b.historical_data.getD ("No historical data provided")) fbi)) j =
        Except.error e) :
    (box_score o (some b) m).2 =
      (500, ResponseBody.errorBody ("Prediction error: " ++ predErrMsg e)) ∧
    (box_score o (some b) m).1.grok_calls = m.grok_calls + (j + 1) ∧
    (box_score o (some b) m).1.error_count_predict = m.error_count_predict + 2 ∧
    (box_score o (some b) m).1.success_count_predict = m.success_count_predict ∧
    (box_score o (some b) m).1.cac_distribution = m.cac_distribution := by
  have hp := predict_box_cac_fail o (b.historical_data.getD ("No historical data provided")) fbi
      { m with request_count_predict := m.request_count_predict + 1 } j e hj hok he
  simp only [box_score, hf]
  rcases hpr : predict_box_cac o (b.historical_data.getD ("No historical data provided")) fbi
      { m with request_count_predict := m.request_count_predict + 1 } with ⟨m1, r1⟩
  rw [hpr] at hp
  obtain ⟨hr, hg, herr, hs, hgd⟩ := hp
  simp only at hr hg herr hs hgd
  subst hr
  refine ⟨rfl, ?_, ?_, ?_, ?_⟩ <;> simp [hg, herr, hs, hgd]

/-- Any 500 response doubles-counts the error: the per-endpoint error
counter rises by exactly two, and the gauge is untouched. -/
theorem box_score_500_inv (o : String → Nat → OracleReply) (req : Option RequestBody)
    (m : Metrics)
    (h : (box_score o req m).2.1 = 500) :
    (box_score o req m).1.error_count_predict = m.error_count_predict + 2 ∧
    (box_score o req m).1.cac_distribution = m.cac_distribution := by
  cases req with
  | none => exact absurd h (by simp [box_score])
  | some b =>
    cases hfb : b.future_box_info with
    | none => exact absurd h (by simp [box_score, hfb])
    | some fbi =>
      simp only [box_score, hfb] at h ⊢
      rcases hpr : predict_box_cac o (b.historical_data.getD ("No historical data provided")) fbi
          { m with request_count_predict := m.request_count_predict + 1 } with ⟨m1, r1⟩
      rw [hpr] at h
      cases r1 with
      | ok cac => exact absurd h (by simp)
      | error msg =>
        have hp := predict_box_cac_error o (b.historical_data.getD ("No historical data provided"))
            fbi { m with request_count_predict := m.request_count_predict + 1 } msg (by rw [hpr])
        rw [hpr] at hp
        simp only at hp
        obtain ⟨he, hgd, _⟩ := hp
        constructor
        · simp [he]
        · simp [hgd]

/-- The response (status and body) does not depend on the metrics state the
handler starts from: with a fixed oracle, repeated identical requests get
identical responses. -/
theorem box_score_resp_congr (o : String → Nat → OracleReply) (req : Option RequestBody)
    (m m' : Metrics) :
    (box_score o req m).2 = (box_score o req m').2 := by
  cases req with
  | none => rfl
  | some b =>
    cases hfb : b.future_box_info with
    | none => simp only [box_score, hfb]
    | some fbi =>
      simp only [box_score, hfb]
      have hc := sampleLoop_snd_congr
          (o (buildPrompt (b.historical_data.getD ("No historical data provided")) fbi)) 10 0
          { m with request_count_predict := m.request_count_predict + 1 }
          { m' with request_count_predict := m'.request_count_predict + 1 }
      simp only [predict_box_cac]
      rcases h1 : sampleLoop
          (o (buildPrompt (b.historical_data.getD ("No historical data provided")) fbi)) 10 0
          { m with request_count_predict := m.request_count_predict + 1 } with ⟨m1, r1⟩
      rcases h2 : sampleLoop
          (o (buildPrompt (b.historical_data.getD ("No historical data provided")) fbi)) 10 0
          { m' with request_count_predict := m'.request_count_predict + 1 } with ⟨m2, r2⟩
      rw [h1, h2] at hc
      simp only at hc
      subst hc
      cases r1 with
      | error e => rfl
      | ok cacs =>
        by_cases hne : cacs = [] <;> simp [hne]

/-! ### Digit strings round-trip -/

theorem digit_char_toNat (d : Nat) (h : d < 10) : (Char.ofNat (48 + d)).toNat = 48 + d := by
  interval_cases d <;> decide

theorem digit_char_isDigit (d : Nat) (h : d < 10) : (Char.ofNat (48 + d)).isDigit = true := by
  interval_cases d <;> decide

theorem digit_char_ne_dot (d : Nat) (h : d < 10) : Char.ofNat (48 + d) ≠ '.' := by
  interval_cases d <;> decide

theorem digit_char_ne_minus (d : Nat) (h : d < 10) : Char.ofNat (48 + d) ≠ '-' := by
  interval_cases d <;> decide

theorem digit_char_ne_plus (d : Nat) (h : d < 10) : Char.ofNat (48 + d) ≠ '+' := by
  interval_cases d <;> decide

theorem digitsToNatAux_append (a : Nat) (l1 l2 : List Char) :
    digitsToNatAux a (l1 ++ l2) = digitsToNatAux (digitsToNatAux a l1) l2 := by
  simp [digitsToNatAux, List.foldl_append]

theorem natToDigitsAux_mem (fuel : Nat) : ∀ (n : Nat) (c : Char), c ∈ natToDigitsAux fuel n →
    ∃ d, d < 10 ∧ c = Char.ofNat (48 + d) := by
  induction fuel with
  | zero => intro n c hc; simp [natToDigitsAux] at hc
  | succ fuel ih =>
    intro n c hc
    by_cases h0 : n = 0
    · simp [natToDigitsAux, h0] at hc
    · simp only [natToDigitsAux, h0, if_false, List.mem_append, List.mem_singleton] at hc
      cases hc with
      | inl h => exact ih (n / 10) c h
      | inr h => exact ⟨n % 10, Nat.mod_lt n (by norm_num), h⟩

theorem natToDigitsAux_val (fuel : Nat) : ∀ (n a : Nat), n ≤ fuel →
    digitsToNatAux a (natToDigitsAux fuel n) =
      a * 10 ^ (natToDigitsAux fuel n).length + n := by
  induction fuel with
  | zero =>
    intro n a hn
    interval_cases n
    simp [natToDigitsAux, digitsToNatAux]
  | succ fuel ih =>
    intro n a hn
    by_cases h0 : n = 0
    · simp [natToDigitsAux, h0, digitsToNatAux]
    · simp only [natToDigitsAux, h0, if_false]
      rw [digitsToNatAux_append]
      have hdiv : n / 10 ≤ fuel := by
        have := Nat.div_lt_self (Nat.pos_of_ne_zero h0) (by norm_num : 1 < 10)
        omega
      rw [ih (n / 10) a hdiv]
      have hmod := Nat.div_add_mod n 10
      have hlt : n % 10 < 10 := Nat.mod_lt n (by norm_num)
      simp [digitsToNatAux, digit_char_toNat (n % 10) hlt, List.length_append, pow_succ]
      ring_nf
      omega

theorem natToDigits_ne_nil (n : Nat) : natToDigits n ≠ [] := by
  unfold natToDigits
  by_cases h0 : n = 0
  · simp [h0]
  · simp only [h0, if_false]
    cases hn : natToDigitsAux n n with
    | nil =>
      exfalso
      have := natToDigitsAux_val n n 0 le_rfl
      rw [hn] at this
      simp [digitsToNatAux] at this
      exact h0 this.symm
    | cons c cs => simp

theorem digitsToNat_natToDigits (n : Nat) : digitsToNat (natToDigits n) = n := by
  unfold natToDigits
  by_cases h0 : n = 0
  · simp [h0, digitsToNat, digitsToNatAux]
  · simp only [h0, if_false]
    have h := natToDigitsAux_val n n 0 le_rfl
    simpa [digitsToNat] using h

theorem natToDigits_digits (n : Nat) (c : Char) (hc : c ∈ natToDigits n) :
    ∃ d, d < 10 ∧ c = Char.ofNat (48 + d) := by
  unfold natToDigits at hc
  by_cases h0 : n = 0
  · rw [h0] at hc
    simp at hc
    exact ⟨0, by norm_num, by rw [hc]⟩
  · rw [if_neg h0] at hc
    exact natToDigitsAux_mem n n c hc

theorem splitOnDot_append (l1 l2 : List Char) (h : ∀ c ∈ l1, c ≠ '.') :
    splitOnDot (l1 ++ '.' :: l2) = (l1, some l2) := by
  induction l1 with
  | nil => simp [splitOnDot]
  | cons c cs ih =>
    have hc : ¬ c = '.' := h c (by simp)
    simp [splitOnDot, hc, ih (fun x hx => h x (by simp [hx]))]

theorem twoDigits_val (k : Nat) (h : k < 100) : digitsToNat (twoDigits k) = k := by
  have h1 : k / 10 < 10 := by omega
  have h2 : k % 10 < 10 := by omega
  simp [twoDigits, digitsToNat, digitsToNatAux, digit_char_toNat (k / 10) h1,
    digit_char_toNat (k % 10) h2]
  omega

theorem twoDigits_all_digits (k : Nat) (h : k < 100) :
    (twoDigits k).all Char.isDigit = true := by
  have h1 : k / 10 < 10 := by omega
  have h2 : k % 10 < 10 := by omega
  simp [twoDigits, digit_char_isDigit (k / 10) h1, digit_char_isDigit (k % 10) h2]

theorem natToDigits_all_digits (n : Nat) : (natToDigits n).all Char.isDigit = true := by
  rw [List.all_eq_true]
  intro c hc
  obtain ⟨d, hd, rfl⟩ := natToDigits_digits n c hc
  exact digit_char_isDigit d hd

/-- Parsing the fixed-point rendering of `n` cents recovers `n / 100`. -/
theorem parseUnsigned_formatCentsNat (n : Nat) :
    parseUnsigned? ((formatCentsNat n).data) = some ((n : ℚ) / 100) := by
  have hdot : ∀ c ∈ natToDigits (n / 100), c ≠ '.' := by
    intro c hc
    obtain ⟨d, hd, rfl⟩ := natToDigits_digits _ c hc
    exact digit_char_ne_dot d hd
  have hdata : (formatCentsNat n).data = natToDigits (n / 100) ++ '.' :: twoDigits (n % 100) := rfl
  rw [hdata]
  unfold parseUnsigned?
  rw [splitOnDot_append _ _ hdot]
  have hmodlt : n % 100 < 100 := by omega
  simp only [natToDigits_ne_nil, natToDigits_all_digits, twoDigits_all_digits _ hmodlt,
    ne_eq, not_false_eq_true, true_or, true_and, and_true, if_true]
  rw [digitsToNat_natToDigits, twoDigits_val _ hmodlt]
  have hlen : (twoDigits (n % 100)).length = 2 := rfl
  rw [hlen]
  have h := Nat.div_add_mod n 100
  have hq : (100 : ℚ) * ((n / 100 : Nat) : ℚ) + ((n % 100 : Nat) : ℚ) = (n : ℚ) := by
    have h2 : ((100 * (n / 100) + n % 100 : Nat) : ℚ) = (n : ℚ) := by rw [h]
    push_cast at h2
    linarith
  congr 1
  field_simp
  linarith

/-- Python `float` on the fixed-point rendering of `n` cents. -/
theorem parseFloat_formatCentsNat (n : Nat) :
    parseFloat? (formatCentsNat n) = some ((n : ℚ) / 100) := by
  have hne := natToDigits_ne_nil (n / 100)
  cases hL : natToDigits (n / 100) with
  | nil => exact absurd hL hne
  | cons c0 cs =>
    obtain ⟨d, hd, hc0⟩ := natToDigits_digits (n / 100) c0 (by rw [hL]; simp)
    have hdata : (formatCentsNat n).data = natToDigits (n / 100) ++ '.' :: twoDigits (n % 100) := rfl
    have hm : (formatCentsNat n).data = c0 :: (cs ++ '.' :: twoDigits (n % 100)) := by
      rw [hdata, hL]
      simp
    unfold parseFloat?
    rw [hm]
    have hminus : ¬ c0 = '-' := by rw [hc0]; exact digit_char_ne_minus d hd
    have hplus : ¬ c0 = '+' := by rw [hc0]; exact digit_char_ne_plus d hd
    simp only [hminus, hplus, if_false]
    have hback : c0 :: (cs ++ '.' :: twoDigits (n % 100)) = (formatCentsNat n).data := hm.symm
    rw [hback]
    exact parseUnsigned_formatCentsNat n

/-- One-step reduction of the parser once the head character is known. -/
theorem parseFloat_cons (c : Char) (rest : List Char) (s : String) (h : s.data = c :: rest) :
    parseFloat? s =
      if c = '-' then (parseUnsigned? rest).map Neg.neg
      else if c = '+' then parseUnsigned? rest
      else parseUnsigned? (c :: rest) := by
  unfold parseFloat?
  rw [h]

/-- Python `float` inverts the service's two-decimal formatting exactly:
the gauge always receives the value of the reported string. -/
theorem parseFloat_formatCents (c : ℤ) :
    parseFloat? (formatCents c) = some ((c : ℚ) / 100) := by
  unfold formatCents
  by_cases hc : c < 0
  · simp only [hc, if_true]
    have hdata : ("-" ++ formatCentsNat (-c).toNat).data =
        '-' :: (formatCentsNat (-c).toNat).data := by
      simp [String.data_append]
    rw [parseFloat_cons '-' ((formatCentsNat (-c).toNat).data) _ hdata]
    rw [if_pos rfl]
    rw [parseUnsigned_formatCentsNat]
    have hcast : (((-c).toNat : ℕ) : ℚ) = ((-c : ℤ) : ℚ) := by
      exact_mod_cast Int.toNat_of_nonneg (by omega : (0 : ℤ) ≤ -c)
    simp only [Option.map_some']
    congr 1
    push_cast at hcast ⊢
    rw [hcast]
    ring
  · simp only [hc, if_false]
    rw [parseFloat_formatCentsNat]
    congr 1
    have hcast : ((c.toNat : ℕ) : ℚ) = (c : ℚ) := by
      exact_mod_cast Int.toNat_of_nonneg (by omega : (0 : ℤ) ≤ c)
    rw [hcast]

/-! ### Properties of the rounding -/

/-- The rounded value is within half a unit of the argument. -/
theorem roundHalfEven_dist (q : ℚ) : |(roundHalfEven q : ℚ) - q| ≤ 1 / 2 := by
  have h0 := Int.fract_nonneg q
  have h1 := Int.fract_lt_one q
  have hf := Int.self_sub_floor q
  unfold roundHalfEven
  split_ifs with hlt hgt heven
  · rw [abs_sub_comm, abs_of_nonneg (by linarith [Int.floor_le q])]
    linarith
  · push_cast
    rw [abs_of_nonneg (by linarith)]
    linarith
  · rw [abs_sub_comm, abs_of_nonneg (by linarith [Int.floor_le q])]
    linarith
  · push_cast
    rw [abs_of_nonneg (by linarith)]
    linarith

/-- A distance of exactly half a unit is a tie, and ties are resolved to an
even integer. -/
theorem roundHalfEven_tie_even (q : ℚ) (h : |(roundHalfEven q : ℚ) - q| = 1 / 2) :
    Even (roundHalfEven q) := by
  have h0 := Int.fract_nonneg q
  have h1 := Int.fract_lt_one q
  have hf := Int.self_sub_floor q
  unfold roundHalfEven at h ⊢
  split_ifs at h ⊢ with hlt hgt heven
  · exfalso
    rw [abs_sub_comm, abs_of_nonneg (by linarith [Int.floor_le q])] at h
    linarith
  · exfalso
    push_cast at h
    rw [abs_of_nonneg (by linarith)] at h
    linarith
  · exact Int.even_iff.mpr heven
  · have hodd : ⌊q⌋ % 2 = 1 := by omega
    refine Int.even_iff.mpr ?_
    omega

/-! ### Concrete evaluations used by witnesses -/

theorem strip_900 : strip ("9.00") = "9.00" := by decide

theorem parse_900 : parseFloat? ("9.00") = some 9 := by
  simp [parseFloat?, parseUnsigned?, splitOnDot, digitsToNat, digitsToNatAux]

theorem validate_900 : validateReply ("9.00") = Except.ok 9 := by
  simp [validateReply, strip, stripChars, parseFloat?, parseUnsigned?, splitOnDot,
    digitsToNat, digitsToNatAux]

theorem validate_abc : validateReply ("abc") = Except.error (ValErr.invalidCAC ("abc")) := by
  simp [validateReply, strip, stripChars, parseFloat?, parseUnsigned?, splitOnDot,
    digitsToNat, digitsToNatAux]

theorem validate_tie : validateReply ("0.125") = Except.ok (1 / 8) := by
  simp [validateReply, strip, stripChars, parseFloat?, parseUnsigned?, splitOnDot,
    digitsToNat, digitsToNatAux]
  norm_num

theorem validate_neg1 : validateReply ("-1") = Except.error (ValErr.invalidCAC ("-1")) := by
  simp [validateReply, strip, stripChars, parseFloat?, parseUnsigned?, splitOnDot,
    digitsToNat, digitsToNatAux]

theorem parse_neg1 : parseFloat? ("-1") = some (-1) := by
  simp [parseFloat?, parseUnsigned?, splitOnDot, digitsToNat, digitsToNatAux]

theorem step_good (p : String) (j : Nat) : stepResult (oracleGood p) j = Except.ok 9 := by
  simp [stepResult, oracleGood, validate_900, Except.mapError]

theorem step_abc (p : String) (j : Nat) :
    stepResult (oracleBad p) j = Except.error (PredErr.validation (ValErr.invalidCAC ("abc"))) := by
  simp [stepResult, oracleBad, validate_abc, Except.mapError]

theorem step_tie (p : String) (j : Nat) : stepResult (oracleTie p) j = Except.ok (1 / 8) := by
  simp [stepResult, oracleTie, validate_tie, Except.mapError]

theorem mean_const (q : ℚ) : ((List.range 10).map (fun _ => q)).sum / 10 = q := by
  simp [List.map_const']
  field_simp
  ring

theorem roundCents_nine : roundCents (9 : ℚ) = 900 := by
  have h1 : (9 : ℚ) * 100 = 900 := by norm_num
  have h2 : ⌊(900 : ℚ)⌋ = 900 := by norm_num
  have h3 : Int.fract (900 : ℚ) = 0 := by unfold Int.fract; rw [h2]; norm_num
  unfold roundCents roundHalfEven
  rw [h1, h3, h2]
  norm_num

theorem roundCents_tie : roundCents (1 / 8 : ℚ) = 12 := by
  have h1 : (1 / 8 : ℚ) * 100 = 25 / 2 := by norm_num
  have h2 : ⌊(25 / 2 : ℚ)⌋ = 12 := by norm_num
  have h3 : Int.fract (25 / 2 : ℚ) = 1 / 2 := by unfold Int.fract; rw [h2]; norm_num
  unfold roundCents roundHalfEven
  rw [h1, h3, h2]
  norm_num

theorem roundHalfAway_tie : roundHalfAwayCents (1 / 8 : ℚ) = 13 := by
  unfold roundHalfAwayCents
  rw [if_pos (by norm_num : (0 : ℚ) ≤ 1 / 8)]
  have h1 : (1 / 8 : ℚ) * 100 + 1 / 2 = 13 := by norm_num
  rw [h1]
  norm_num

theorem formatCents_900 : formatCents 900 = "9.00" := by
  simp [formatCents, formatCentsNat, natToDigits, natToDigitsAux, twoDigits]

theorem formatCents_12 : formatCents 12 = "0.12" := by
  simp [formatCents, formatCentsNat, natToDigits, natToDigitsAux, twoDigits]

theorem formatCents_13 : formatCents 13 = "0.13" := by
  simp [formatCents, formatCentsNat, natToDigits, natToDigitsAux, twoDigits]

/-- Extracting the transport and validation facts from a successful step. -/
theorem stepResult_ok_inv (o : Nat → OracleReply) (n : Nat) (q : ℚ)
    (h : stepResult o n = Except.ok q) :
    (o n).status = 200 ∧ validateReply (o n).content = Except.ok q := by
  unfold stepResult at h
  by_cases hs : (o n).status = 200
  · rw [if_pos hs] at h
    refine ⟨hs, ?_⟩
    cases hv : validateReply (o n).content with
    | error e => rw [hv] at h; simp [Except.mapError] at h
    | ok w =>
      rw [hv] at h
      simp [Except.mapError] at h
      rw [h]
  · rw [if_neg hs] at h
    simp at h

/-! ### The claims -/

/-- C1: for every request whose ten oracle replies all carry HTTP status
200 and a numeric string satisfying the domain constraint (non-empty after
stripping, parseable as a decimal literal, non-negative), the endpoint
returns HTTP 200 and the reported `predicted_cac` string is the two-decimal
formatting of the arithmetic mean of the ten parsed values. -/
theorem C1_mean_of_valid_samples (o : String → Nat → OracleReply) (b : RequestBody)
    (fbi : String) (m : Metrics) (v : Nat → ℚ)
    (hf : b.future_box_info = some fbi)
    (h : ∀ j, j < 10 →
      (o (buildPrompt (b.historical_data.getD ("No historical data provided")) fbi) j).status = 200 ∧
      strip (o (buildPrompt (b.historical_data.getD ("No historical data provided")) fbi) j).content ≠ "" ∧
      parseFloat? (strip (o (buildPrompt (b.historical_data.getD ("No historical data provided")) fbi) j).content) =
        some (v j) ∧
      0 ≤ v j) :
    (box_score o (some b) m).2 =
      (200, ResponseBody.predictedCac (formatCents (roundCents (((List.range 10).map v).sum / 10)))) := by
  have hstep : ∀ j, j < 10 →
      stepResult (o (buildPrompt (b.historical_data.getD ("No historical data provided")) fbi)) j =
        Except.ok (v j) := by
    intro j hj
    obtain ⟨hs, hne, hp, hnn⟩ := h j hj
    have hv := (validateReply_ok_iff _ _).mpr ⟨hne, hp, hnn⟩
    simp [stepResult, hs, hv, Except.mapError]
  exact (box_score_ok_samples o b fbi m v hf hstep).1

/-- C1 witness: ten stubbed replies of "9.00" produce a 200 response
carrying the formatted mean. -/
theorem C1_mean_of_valid_samples_witness :
    (box_score oracleGood
        (some ⟨some ("box A: CAC 8.00"), some ("12 products, 300g")⟩) initMetrics).2 =
      (200, ResponseBody.predictedCac (formatCents (roundCents
        (((List.range 10).map (fun _ => (9 : ℚ))).sum / 10)))) :=
  C1_mean_of_valid_samples oracleGood
    ⟨some ("box A: CAC 8.00"), some ("12 products, 300g")⟩ ("12 products, 300g")
    initMetrics (fun _ => 9) rfl
    (fun j hj =>
      ⟨rfl, by simp only [oracleGood]; decide,
       by simp only [oracleGood]; rw [strip_900]; exact parse_900, by norm_num⟩)

/-- C2: if the first `j` replies validate and reply `j` is invalid
(transport failure, empty, unparseable or negative), the endpoint returns
HTTP 500 with an error body wrapping the cause, no estimate is reported,
and no oracle call beyond the failing one is made (exactly `j + 1`
increments of the oracle-call counter). -/
theorem C2_fail_fast (o : String → Nat → OracleReply) (b : RequestBody) (fbi : String)
    (m : Metrics) (j : Nat) (e : PredErr)
    (hf : b.future_box_info = some fbi)
    (hj : j < 10)
    (hok : ∀ t, t < j →
      ∃ q, stepResult (o (buildPrompt (b.historical_data.getD ("No historical data provided")) fbi)) t =
        Except.ok q)
    (he : stepResult (o (buildPrompt (b.historical_data.getD ("No historical data provided")) fbi)) j =
        Except.error e) :
    (box_score o (some b) m).2.1 = 500 ∧
    (box_score o (some b) m).2.2 =
      ResponseBody.errorBody ("Prediction error: " ++ predErrMsg e) ∧
    (∀ s, (box_score o (some b) m).2.2 ≠ ResponseBody.predictedCac s) ∧
    (box_score o (some b) m).1.grok_calls = m.grok_calls + (j + 1) := by
  obtain ⟨hresp, hg, _, _, _⟩ := box_score_fail_samples o b fbi m j e hf hj hok he
  refine ⟨?_, ?_, ?_, hg⟩
  · rw [hresp]
  · rw [hresp]
  · intro s hs
    rw [hresp] at hs
    simp at hs

/-- C2 witness: a first reply of "abc" aborts after one oracle call with a
500 response and no estimate. -/
theorem C2_fail_fast_witness :
    (box_score oracleBad (some ⟨none, some ("future box")⟩) initMetrics).2.1 = 500 ∧
    (box_score oracleBad (some ⟨none, some ("future box")⟩) initMetrics).2.2 =
      ResponseBody.errorBody ("Prediction error: " ++
        predErrMsg (PredErr.validation (ValErr.invalidCAC ("abc")))) ∧
    (∀ s, (box_score oracleBad (some ⟨none, some ("future box")⟩) initMetrics).2.2 ≠
      ResponseBody.predictedCac s) ∧
    (box_score oracleBad (some ⟨none, some ("future box")⟩) initMetrics).1.grok_calls =
      initMetrics.grok_calls + (0 + 1) :=
  C2_fail_fast oracleBad ⟨none, some ("future box")⟩ ("future box") initMetrics 0
    (PredErr.validation (ValErr.invalidCAC ("abc"))) rfl (by norm_num)
    (fun t ht => absurd ht (by omega)) (step_abc _ 0)

/-- C3: whenever the aggregation function produces an estimate, it was
computed from exactly ten samples, each of which validated (status 200 and
a non-negative parsed value), and the estimate is the two-decimal
formatting of their mean; nothing else is ever returned as an estimate. -/
theorem C3_estimate_invariant (o : String → Nat → OracleReply) (hd fbi : String)
    (m : Metrics) (s : String)
    (h : (predict_box_cac o hd fbi m).2 = Except.ok s) :
    ∃ vs : List ℚ, vs.length = 10 ∧
      (∀ j, j < 10 → stepResult (o (buildPrompt hd fbi)) j = Except.ok (vs.getD j 0)) ∧
      (∀ q ∈ vs, 0 ≤ q) ∧
      s = formatCents (roundCents (vs.sum / 10)) := by
  obtain ⟨vs, hlen, hidx, hs, _, _, _⟩ := predict_box_cac_ok_inv o hd fbi m s h
  refine ⟨vs, hlen, hidx, ?_, hs⟩
  intro q hq
  obtain ⟨i, hi, hget⟩ := List.mem_iff_getElem.mp hq
  have hstep := hidx i (by omega)
  have hgd : vs.getD i 0 = q := by
    rw [List.getD_eq_getElem?_getD]
    rw [List.getElem?_eq_getElem hi]
    simpa using hget
  rw [hgd] at hstep
  obtain ⟨-, hval⟩ := stepResult_ok_inv _ i q hstep
  exact ((validateReply_ok_iff _ _).mp hval).2.2

/-- C3 witness: the constant stub "9.00" produces the estimate "9.00", so
the invariant instantiates at it. -/
theorem C3_estimate_invariant_witness :
    ∃ vs : List ℚ, vs.length = 10 ∧
      (∀ j, j < 10 → stepResult (oracleGood (buildPrompt ("h") ("f"))) j =
        Except.ok (vs.getD j 0)) ∧
      (∀ q ∈ vs, 0 ≤ q) ∧
      "9.00" = formatCents (roundCents (vs.sum / 10)) := by
  have hpred : (predict_box_cac oracleGood ("h") ("f") initMetrics).2 = Except.ok ("9.00") := by
    have h0 := (predict_box_cac_ok oracleGood ("h") ("f") initMetrics (fun _ => 9)
      (fun j hj => step_good _ j)).1
    rw [mean_const 9, roundCents_nine, formatCents_900] at h0
    exact h0
  exact C3_estimate_invariant oracleGood ("h") ("f") initMetrics ("9.00") hpred

/-- C4 counterexample: the reply "-1" strips to itself, parses as the
decimal number -1 and violates only the domain (range) constraint, yet the
validator rejects it with the same `invalidCAC` kind (message
`Invalid CAC: -1`) that unparseable replies such as "abc" receive — the
claimed distinct range kind does not exist in the code. -/
theorem C4_counterexample :
    parseFloat? ("-1") = some (-1) ∧
    validateReply ("-1") = Except.error (ValErr.invalidCAC ("-1")) ∧
    validateReply ("abc") = Except.error (ValErr.invalidCAC ("abc")) :=
  ⟨parse_neg1, validate_neg1, validate_abc⟩

/-- C4 amended: validation first strips surrounding whitespace and succeeds
with the parsed value exactly when the stripped text is non-empty,
parseable as a decimal literal, and non-negative; it fails with the empty
kind exactly when the stripped text is empty, and with the single
invalid-value kind (carrying the stripped text) both when the text is
unparseable and when it parses to a negative value — format and range
violations share one error kind. -/
theorem C4_validation_amended (s : String) :
    (∀ q : ℚ, validateReply s = Except.ok q ↔
      (strip s ≠ "" ∧ parseFloat? (strip s) = some q ∧ 0 ≤ q)) ∧
    (validateReply s = Except.error ValErr.emptyReply ↔ strip s = "") ∧
    (∀ r : String, validateReply s = Except.error (ValErr.invalidCAC r) ↔
      (strip s ≠ "" ∧ r = strip s ∧
        (parseFloat? (strip s) = none ∨ ∃ q, parseFloat? (strip s) = some q ∧ q < 0))) :=
  ⟨fun q => validateReply_ok_iff s q, validateReply_empty_iff s,
   fun r => validateReply_invalid_iff s r⟩

/-- C5: a request whose JSON body lacks `future_box_info` is answered with
HTTP 400 and body `{"error": "Missing future_box_info"}`, and the
oracle-call counter is not incremented. -/
theorem C5_missing_future_box_info (o : String → Nat → OracleReply)
    (req : Option RequestBody) (m : Metrics)
    (h : ∀ b, req = some b → b.future_box_info = none) :
    (box_score o req m).2.1 = 400 ∧
    (box_score o req m).2.2 = ResponseBody.errorBody ("Missing future_box_info") ∧
    (box_score o req m).1.grok_calls = m.grok_calls := by
  obtain ⟨h1, h2, h3, _⟩ := box_score_missing o req m h
  exact ⟨h1, h2, h3⟩

/-- C5 witness: a missing JSON body is rejected with 400 and zero oracle
calls. -/
theorem C5_missing_future_box_info_witness :
    (box_score oracleGood none initMetrics).2.1 = 400 ∧
    (box_score oracleGood none initMetrics).2.2 =
      ResponseBody.errorBody ("Missing future_box_info") ∧
    (box_score oracleGood none initMetrics).1.grok_calls = initMetrics.grok_calls :=
  C5_missing_future_box_info oracleGood none initMetrics (fun _ hb => nomatch hb)

/-- C6 counterexample: with all ten replies "0.125" (a dyadic value, exact
in binary floating point) the mean is 1/8 and the service reports "0.12"
(nearest hundredth, tie to the even digit 2), while rounding half away from
zero as claimed would report "0.13". -/
theorem C6_counterexample :
    (predict_box_cac oracleTie ("h") ("f") initMetrics).2 = Except.ok ("0.12") ∧
    formatCents (roundHalfAwayCents (1 / 8)) = "0.13" ∧
    ("0.12" : String) ≠ "0.13" := by
  refine ⟨?_, ?_, by decide⟩
  · have h0 := (predict_box_cac_ok oracleTie ("h") ("f") initMetrics (fun _ => 1 / 8)
      (fun j _ => step_tie _ j)).1
    rw [mean_const (1 / 8), roundCents_tie, formatCents_12] at h0
    exact h0
  · rw [roundHalfAway_tie, formatCents_13]

/-- C6 amended: on an all-valid run the aggregator reports the mean
formatted to exactly two decimal places, where the number of cents is the
integer nearest to one hundred times the mean and an exact tie is resolved
to the even integer (Python's fixed-point formatting), not away from
zero. -/
theorem C6_rounding_amended (o : String → Nat → OracleReply) (hd fbi : String)
    (m : Metrics) (v : Nat → ℚ)
    (h : ∀ j, j < 10 → stepResult (o (buildPrompt hd fbi)) j = Except.ok (v j)) :
    (predict_box_cac o hd fbi m).2 =
      Except.ok (formatCents (roundCents (((List.range 10).map v).sum / 10))) ∧
    |(roundCents (((List.range 10).map v).sum / 10) : ℚ) -
        (((List.range 10).map v).sum / 10) * 100| ≤ 1 / 2 ∧
    (|(roundCents (((List.range 10).map v).sum / 10) : ℚ) -
        (((List.range 10).map v).sum / 10) * 100| = 1 / 2 →
      Even (roundCents (((List.range 10).map v).sum / 10))) := by
  refine ⟨(predict_box_cac_ok o hd fbi m v h).1, ?_, ?_⟩
  · exact roundHalfEven_dist ((((List.range 10).map v).sum / 10) * 100)
  · intro ht
    exact roundHalfEven_tie_even ((((List.range 10).map v).sum / 10) * 100) ht

/-- C6 amended witness: instantiated at the constant stub "0.125". -/
theorem C6_rounding_amended_witness :
    (predict_box_cac oracleTie ("h") ("f") initMetrics).2 =
      Except.ok (formatCents (roundCents
        (((List.range 10).map (fun _ => (1 / 8 : ℚ))).sum / 10))) ∧
    |(roundCents (((List.range 10).map (fun _ => (1 / 8 : ℚ))).sum / 10) : ℚ) -
        (((List.range 10).map (fun _ => (1 / 8 : ℚ))).sum / 10) * 100| ≤ 1 / 2 ∧
    (|(roundCents (((List.range 10).map (fun _ => (1 / 8 : ℚ))).sum / 10) : ℚ) -
        (((List.range 10).map (fun _ => (1 / 8 : ℚ))).sum / 10) * 100| = 1 / 2 →
      Even (roundCents (((List.range 10).map (fun _ => (1 / 8 : ℚ))).sum / 10))) :=
  C6_rounding_amended oracleTie ("h") ("f") initMetrics (fun _ => 1 / 8)
    (fun j _ => step_tie _ j)

/-- C7: with a fixed oracle stub returning the same reply on every call,
repeating the identical request (from whatever metrics state the first
call left behind) yields the identical response, status and body alike. -/
theorem C7_deterministic (reply : OracleReply) (req : Option RequestBody) (m : Metrics) :
    (box_score (fun _ _ => reply) req ((box_score (fun _ _ => reply) req m).1)).2 =
      (box_score (fun _ _ => reply) req m).2 :=
  box_score_resp_congr (fun _ _ => reply) req _ m

/-- C8: every request to `/health` is answered with HTTP 200 and body
`{"status": "healthy"}`, from any metrics state, without any oracle call
(the handler does not even receive the oracle). -/
theorem C8_health (m : Metrics) :
    (health_check m).2.1 = 200 ∧
    (health_check m).2.2 = ResponseBody.healthy ∧
    (health_check m).1.grok_calls = m.grok_calls :=
  ⟨rfl, rfl, rfl⟩

/-- C9: every request answered with HTTP 500 increments the per-endpoint
error counter exactly twice — once inside `predict_box_cac`'s handler and
once in the route handler — so the counter overcounts failed requests. -/
theorem C9_double_error_count (o : String → Nat → OracleReply) (req : Option RequestBody)
    (m : Metrics)
    (h : (box_score o req m).2.1 = 500) :
    (box_score o req m).1.error_count_predict = m.error_count_predict + 2 :=
  (box_score_500_inv o req m h).1

/-- C9 witness: a failing prediction from a fresh registry leaves the error
counter at two after one failed request. -/
theorem C9_double_error_count_witness :
    (box_score oracleBad (some ⟨none, some ("future box")⟩) initMetrics).2.1 = 500 ∧
    (box_score oracleBad (some ⟨none, some ("future box")⟩) initMetrics).1.error_count_predict =
      initMetrics.error_count_predict + 2 := by
  have h500 : (box_score oracleBad (some ⟨none, some ("future box")⟩) initMetrics).2.1 = 500 := by
    have hr := (box_score_fail_samples oracleBad ⟨none, some ("future box")⟩ ("future box")
      initMetrics 0 (PredErr.validation (ValErr.invalidCAC ("abc"))) rfl (by norm_num)
      (fun t ht => absurd ht (by omega)) (step_abc _ 0)).1
    rw [hr]
  exact ⟨h500, C9_double_error_count oracleBad (some ⟨none, some ("future box")⟩) initMetrics h500⟩

/-- C10: the last-estimate gauge is written only on the success path, and
there it receives exactly the parsed numeric value of the already-rounded
reported string — a two-decimal number of the form `c / 100` — while any
failed request leaves the gauge unchanged. -/
theorem C10_gauge_success_only (o : String → Nat → OracleReply) (req : Option RequestBody)
    (m : Metrics) :
    ((box_score o req m).1.cac_distribution =
      (match (box_score o req m).2.2 with
       | ResponseBody.predictedCac s => parseFloat? s
       | ResponseBody.errorBody _ => m.cac_distribution
       | ResponseBody.healthy => m.cac_distribution)) ∧
    (∀ s, (box_score o req m).2.2 = ResponseBody.predictedCac s →
      ∃ c : ℤ, parseFloat? s = some ((c : ℚ) / 100)) := by
  cases req with
  | none => exact ⟨rfl, fun s hs => nomatch hs⟩
  | some b =>
    cases hfb : b.future_box_info with
    | none =>
      constructor
      · simp [box_score, hfb]
      · intro s hs
        simp [box_score, hfb] at hs
    | some fbi =>
      simp only [box_score, hfb]
      rcases hpr : predict_box_cac o (b.historical_data.getD ("No historical data provided")) fbi
          { m with request_count_predict := m.request_count_predict + 1 } with ⟨m1, r1⟩
      cases r1 with
      | ok cac =>
        obtain ⟨vs, hlen, hidx, hmean, hgauge, _, _⟩ :=
          predict_box_cac_ok_inv o (b.historical_data.getD ("No historical data provided")) fbi
            { m with request_count_predict := m.request_count_predict + 1 } cac (by rw [hpr])
        rw [hpr] at hgauge
        simp only at hgauge
        constructor
        · simpa using hgauge
        · intro s hs
          simp only at hs
          cases hs
          exact ⟨roundCents (vs.sum / 10), by rw [hmean]; exact parseFloat_formatCents _⟩
      | error msg =>
        obtain ⟨_, hgauge, _⟩ :=
          predict_box_cac_error o (b.historical_data.getD ("No historical data provided")) fbi
            { m with request_count_predict := m.request_count_predict + 1 } msg (by rw [hpr])
        rw [hpr] at hgauge
        simp only at hgauge
        constructor
        · simpa using hgauge
        · intro s hs
          simp only at hs
          cases hs
